import Mathlib

/-
Verification of the stake instruction layer of solana-py.

Shallow embedding of:
  src/solana/_layouts/stake_instructions.py  (STAKE_INSTRUCTIONS_LAYOUT)
  src/solana/stake_program.py                (parameter records and builders)

Bytes are modelled as `Nat` (each in [0, 256)), byte strings as `List Nat`.
The `construct` combinators used by the layout are embedded by their
documented semantics: `Int32ul`/`Int64ul` are fixed-width little-endian
unsigned integers whose build fails outside [0, 2^w); `Int64sl` is
little-endian two's complement; `Switch` with no `default` argument
falls back to `Pass` (which builds no bytes and parses `None`) for a
key absent from its case table; `Struct.parse` reads fields from a
stream and ignores any unconsumed trailing bytes.  Fallible building
and parsing are modelled with `Option`: `none` stands for the raised
exception.
-/

/-- Little-endian byte string of width `w` for the natural number `n`
(the bytes written by an unsigned fixed-width construct field). -/
def leBytes : Nat → Nat → List Nat
  | 0, _ => []
  | w + 1, n => n % 256 :: leBytes w (n / 256)

/-- Read `w` bytes from the stream `s` as a little-endian unsigned
integer, returning the value and the rest of the stream; fails when
fewer than `w` bytes remain. -/
def leParse : Nat → List Nat → Option (Nat × List Nat)
  | 0, s => some (0, s)
  | _ + 1, [] => none
  | w + 1, b :: s => (leParse w s).map fun p => (b + 256 * p.1, p.2)

/-- Read exactly `n` raw bytes from the stream; fails when fewer remain. -/
def takeBytes (n : Nat) (s : List Nat) : Option (List Nat × List Nat) :=
  if n ≤ s.length then some (s.take n, s.drop n) else none

/-- Two's-complement little-endian build of a signed 64-bit integer
(construct `Int64sl`); fails outside [-2^63, 2^63). -/
def i64Bytes (z : Int) : Option (List Nat) :=
  if -(2 ^ 63) ≤ z ∧ z < 2 ^ 63 then
    some (leBytes 8 ((z % (2 ^ 64 : Int)).toNat))
  else none

/-- Signed interpretation of a 64-bit little-endian value (construct
`Int64sl` parse side). -/
def i64FromBits (m : Nat) : Int :=
  if m < 2 ^ 63 then (m : Int) else (m : Int) - 2 ^ 64

theorem leBytes_length (w n : Nat) : (leBytes w n).length = w := by
  induction w generalizing n with
  | zero => rfl
  | succ w ih => simp [leBytes, ih]

theorem mod_mul_decomp (n K : Nat) (hK : 0 < K) :
    n % (256 * K) = n % 256 + 256 * (n / 256 % K) := by
  have h1 : n = 256 * (n / 256) + n % 256 := (Nat.div_add_mod n 256).symm
  have h2 : n % 256 < 256 := Nat.mod_lt _ (by omega)
  have h3 : n / 256 % K < K := Nat.mod_lt _ hK
  calc n % (256 * K)
      = (256 * (n / 256) + n % 256) % (256 * K) := by rw [← h1]
    _ = (256 * (n / 256) % (256 * K) + (n % 256) % (256 * K)) % (256 * K) := by
        rw [Nat.add_mod]
    _ = (256 * (n / 256 % K) + (n % 256) % (256 * K)) % (256 * K) := by
        rw [Nat.mul_mod_mul_left]
    _ = (256 * (n / 256 % K) + n % 256) % (256 * K) := by
        rw [Nat.mod_eq_of_lt (a := n % 256) (by omega)]
    _ = 256 * (n / 256 % K) + n % 256 := Nat.mod_eq_of_lt (by omega)
    _ = n % 256 + 256 * (n / 256 % K) := by omega

theorem leParse_leBytes (w n : Nat) (rest : List Nat) :
    leParse w (leBytes w n ++ rest) = some (n % 256 ^ w, rest) := by
  induction w generalizing n with
  | zero => simp [leParse, leBytes, Nat.mod_one]
  | succ w ih =>
    have hK : 0 < 256 ^ w := Nat.pos_pow_of_pos w (by omega)
    have step : leParse (w + 1) (leBytes (w + 1) n ++ rest)
        = (leParse w (leBytes w (n / 256) ++ rest)).map
            fun p => (n % 256 + 256 * p.1, p.2) := rfl
    rw [step, ih, Option.map_some']
    rw [pow_succ', mod_mul_decomp n (256 ^ w) hK]

theorem leParse_leBytes_of_lt (w n : Nat) (rest : List Nat) (h : n < 256 ^ w) :
    leParse w (leBytes w n ++ rest) = some (n, rest) := by
  rw [leParse_leBytes, Nat.mod_eq_of_lt h]

theorem leParse_short (w : Nat) (s : List Nat) (h : s.length < w) :
    leParse w s = none := by
  induction w generalizing s with
  | zero => omega
  | succ w ih =>
    cases s with
    | nil => rfl
    | cons b t =>
      have ht : t.length < w := by simpa using h
      simp [leParse, ih t ht]

theorem leParse_length (w : Nat) (s : List Nat) (x : Nat) (r : List Nat)
    (h : leParse w s = some (x, r)) : s.length = w + r.length := by
  induction w generalizing s x with
  | zero =>
    simp only [leParse, Option.some.injEq, Prod.mk.injEq] at h
    rw [h.2]
    omega
  | succ w ih =>
    cases s with
    | nil => simp [leParse] at h
    | cons b t =>
      simp only [leParse, Option.map_eq_some'] at h
      obtain ⟨⟨m, r2⟩, hm, hx⟩ := h
      have hr : r2 = r := by simpa using congrArg Prod.snd hx
      subst hr
      have := ih t m hm
      simp only [List.length_cons]
      omega

theorem take_append_self (l r : List Nat) : (l ++ r).take l.length = l := by
  induction l with
  | nil => rfl
  | cons a t ih => simp [ih]

theorem drop_append_self (l r : List Nat) : (l ++ r).drop l.length = r := by
  induction l with
  | nil => rfl
  | cons a t ih => simp [ih]

theorem takeBytes_append (l r : List Nat) :
    takeBytes l.length (l ++ r) = some (l, r) := by
  simp [takeBytes, take_append_self, drop_append_self]

theorem takeBytes_length (n : Nat) (s l r : List Nat)
    (h : takeBytes n s = some (l, r)) : s.length = n + r.length ∧ l.length = n := by
  unfold takeBytes at h
  split at h
  · next hn =>
    simp only [Option.some.injEq, Prod.mk.injEq] at h
    obtain ⟨hl, hr⟩ := h
    subst hl; subst hr
    constructor
    · simp [List.length_drop]; omega
    · simp [List.length_take]; omega
  · exact absurd h (by simp)

theorem i64Bits_lt (z : Int) : (z % (2 ^ 64 : Int)).toNat < 2 ^ 64 := by
  have h1 : (0 : Int) ≤ z % (2 ^ 64 : Int) :=
    Int.emod_nonneg z (by norm_num)
  have h2 : z % (2 ^ 64 : Int) < (2 ^ 64 : Int) :=
    Int.emod_lt_of_pos z (by norm_num)
  omega

theorem i64FromBits_round (z : Int) (h1 : -(2 ^ 63) ≤ z) (h2 : z < 2 ^ 63) :
    i64FromBits ((z % (2 ^ 64 : Int)).toNat) = z := by
  have ha : (0 : Int) ≤ z % (2 ^ 64 : Int) :=
    Int.emod_nonneg z (by norm_num)
  have hb : z % (2 ^ 64 : Int) < (2 ^ 64 : Int) :=
    Int.emod_lt_of_pos z (by norm_num)
  have hc : z % (2 ^ 64 : Int) = z ∨ z % (2 ^ 64 : Int) = z + 2 ^ 64 := by
    omega
  unfold i64FromBits
  split <;> omega

/-- Modelled from the spec: the identity-key type (`solana/publickey.py`,
not under src/): a 32-byte key supporting byte-exact equality and
raw-byte extraction. -/
abbrev PublicKey := { l : List Nat // l.length = 32 }

/-- Raw 32 bytes of a key (`bytes(pubkey)` in the source). -/
def PublicKey.bytes (k : PublicKey) : List Nat := k.val

theorem PublicKey.bytes_length (k : PublicKey) : k.bytes.length = 32 := k.prop

/-- Base58 decoding of `"11111111111111111111111111111111"`: the System
program id (`SYS_PROGRAM_ID` in `stake_program.py`). -/
def SYS_PROGRAM_ID : PublicKey := ⟨List.replicate 32 0, by simp⟩

/-- Base58 decoding of `"Stake11111111111111111111111111111111111111"`:
the Stake program id (`STAKE_PROGRAM_ID` in `stake_program.py`). -/
def STAKE_PROGRAM_ID : PublicKey :=
  ⟨[6, 161, 216, 23, 145, 55, 84, 42, 152, 52, 55, 189, 254, 42, 122, 178,
    85, 127, 83, 92, 138, 120, 114, 43, 104, 164, 157, 192, 0, 0, 0, 0],
   by decide⟩

/-- Base58 decoding of `"StakeConfig11111111111111111111111111111111"`
(`CONFIG_STAKE_PUBKEY` in `stake_program.py`). -/
def CONFIG_STAKE_PUBKEY : PublicKey :=
  ⟨[6, 161, 216, 23, 165, 2, 5, 11, 104, 7, 145, 230, 206, 109, 184, 142,
    30, 91, 113, 80, 246, 31, 198, 121, 10, 78, 180, 209, 0, 0, 0, 0],
   by decide⟩

/-- Modelled from the spec: well-known clock sysvar address
(`solana/sysvar.py`, not under src/), base58 decoding of
`"SysvarC1ock11111111111111111111111111111111"`. -/
def SYSVAR_CLOCK_PUBKEY : PublicKey :=
  ⟨[6, 167, 213, 23, 24, 199, 116, 201, 40, 86, 99, 152, 105, 29, 94, 182,
    139, 94, 184, 163, 155, 75, 109, 92, 115, 85, 91, 33, 0, 0, 0, 0],
   by decide⟩

/-- Modelled from the spec: well-known rent sysvar address
(`solana/sysvar.py`, not under src/), base58 decoding of
`"SysvarRent111111111111111111111111111111111"`. -/
def SYSVAR_RENT_PUBKEY : PublicKey :=
  ⟨[6, 167, 213, 23, 25, 44, 92, 81, 33, 140, 201, 76, 61, 74, 241, 127,
    88, 218, 238, 8, 155, 161, 253, 68, 227, 219, 217, 138, 0, 0, 0, 0],
   by decide⟩

/-- Modelled from the spec: well-known stake-history sysvar address
(`solana/sysvar.py`, not under src/), base58 decoding of
`"SysvarStakeHistory1111111111111111111111111"`. -/
def SYSVAR_STAKE_HISTORY_PUBKEY : PublicKey :=
  ⟨[6, 167, 213, 23, 25, 53, 132, 208, 254, 237, 155, 179, 67, 29, 19, 32,
    107, 229, 68, 40, 27, 87, 184, 86, 108, 197, 55, 95, 244, 0, 0, 0],
   by decide⟩

/- Discriminants of `StakeInstructionType` (IntEnum in
`stake_instructions.py`). -/
namespace StakeInstructionType

def INITIALIZE_STAKE_ACCOUNT : Nat := 0

def DELEGATE_STAKE : Nat := 1

def DEACTIVATE : Nat := 2

def WITHDRAW_STAKE : Nat := 3

end StakeInstructionType

/-- `Authorized` named tuple from `stake_program.py`. -/
structure Authorized where
  staker : PublicKey
  withdrawer : PublicKey

/-- `Lockup` named tuple from `stake_program.py`; `unix_timestamp` is
signed (`Int64sl`), `epoch` unsigned (`Int64ul`). -/
structure Lockup where
  unix_timestamp : Int
  epoch : Nat
  custodian : PublicKey

/-- Argument value handed to `STAKE_INSTRUCTIONS_LAYOUT.build` as the
`args` field: the Initialize payload dict, the empty dict `{}`, or the
Withdraw payload dict. -/
inductive StakeArgs where
  | initArgs (authorized : Authorized) (lockup : Lockup)
  | empty
  | withdrawArgs (lamports : Nat)

/-- Build side of `_INITIALIZE_STAKE_ACCOUNT_LAYOUT`: `authorized`
(two 32-byte keys) then `lockup` (i64 timestamp, u64 epoch, 32-byte
custodian); fails on any other args shape or out-of-range field. -/
def initializeLayoutBuild : StakeArgs → Option (List Nat)
  | .initArgs a l =>
    (i64Bytes l.unix_timestamp).bind fun ts =>
      (if l.epoch < 2 ^ 64 then some (leBytes 8 l.epoch) else none).bind fun ep =>
        some (a.staker.bytes ++ a.withdrawer.bytes ++ ts ++ ep ++ l.custodian.bytes)
  | _ => none

/-- Build side of `_WITHDRAW_STAKE_ACCOUNT_LAYOUT`: a single u64
`lamports` field. -/
def withdrawLayoutBuild : StakeArgs → Option (List Nat)
  | .withdrawArgs x => if x < 2 ^ 64 then some (leBytes 8 x) else none
  | _ => none

/-- Construct `Pass`: builds no bytes, whatever the supplied args. -/
def passBuild : StakeArgs → Option (List Nat) := fun _ => some []

/-- The `Switch` of `STAKE_INSTRUCTIONS_LAYOUT`: cases for discriminants
0, 1 and 3 only; the `DEACTIVATE` discriminant 2 has no entry in the
case table, so it falls through to the default, which is `Pass` — as
does every unknown discriminant. -/
def stakeSwitchBuild (ty : Nat) (args : StakeArgs) : Option (List Nat) :=
  if ty = StakeInstructionType.INITIALIZE_STAKE_ACCOUNT then initializeLayoutBuild args
  else if ty = StakeInstructionType.DELEGATE_STAKE then passBuild args
  else if ty = StakeInstructionType.WITHDRAW_STAKE then withdrawLayoutBuild args
  else passBuild args

/-- `STAKE_INSTRUCTIONS_LAYOUT.build`: u32 little-endian discriminant
followed by the switched payload. -/
def stakeBuild (ty : Nat) (args : StakeArgs) : Option (List Nat) :=
  if ty < 2 ^ 32 then
    (stakeSwitchBuild ty args).map fun payload => leBytes 4 ty ++ payload
  else none

/-- Parsed `args` container produced by `STAKE_INSTRUCTIONS_LAYOUT.parse`;
`noneP` is the `None` that `Pass` parses to. -/
inductive ParsedStakeArgs where
  | initP (staker withdrawer : List Nat) (unix_timestamp : Int) (epoch : Nat)
      (custodian : List Nat)
  | withdrawP (lamports : Nat)
  | noneP
  deriving DecidableEq

/-- Parse side of `_INITIALIZE_STAKE_ACCOUNT_LAYOUT`. -/
def initializeLayoutParse (s : List Nat) : Option (ParsedStakeArgs × List Nat) :=
  (takeBytes 32 s).bind fun p1 =>
    (takeBytes 32 p1.2).bind fun p2 =>
      (leParse 8 p2.2).bind fun p3 =>
        (leParse 8 p3.2).bind fun p4 =>
          (takeBytes 32 p4.2).map fun p5 =>
            (.initP p1.1 p2.1 (i64FromBits p3.1) p4.1 p5.1, p5.2)

/-- Parse side of the `Switch`: unknown discriminants (including
`DEACTIVATE = 2`) hit the `Pass` default and parse to `None`. -/
def stakeSwitchParse (ty : Nat) (s : List Nat) : Option (ParsedStakeArgs × List Nat) :=
  if ty = StakeInstructionType.INITIALIZE_STAKE_ACCOUNT then initializeLayoutParse s
  else if ty = StakeInstructionType.DELEGATE_STAKE then some (.noneP, s)
  else if ty = StakeInstructionType.WITHDRAW_STAKE then
    (leParse 8 s).map fun p => (.withdrawP p.1, p.2)
  else some (.noneP, s)

/-- Stream-level parse of `STAKE_INSTRUCTIONS_LAYOUT`: discriminant,
then switched payload, returning the unconsumed rest of the stream. -/
def stakeParseStream (s : List Nat) : Option ((Nat × ParsedStakeArgs) × List Nat) :=
  (leParse 4 s).bind fun p =>
    (stakeSwitchParse p.1 p.2).map fun q => ((p.1, q.1), q.2)

/-- `STAKE_INSTRUCTIONS_LAYOUT.parse`: construct's `parse` wraps the
buffer in a stream and ignores any unconsumed trailing bytes. -/
def stakeDecode (s : List Nat) : Option (Nat × ParsedStakeArgs) :=
  (stakeParseStream s).map Prod.fst

/-- Modelled from the spec: `AccountMeta` (`solana/transaction.py`, not
under src/): a key plus `is_signer` and `is_writable` flags. -/
structure AccountMeta where
  pubkey : PublicKey
  is_signer : Bool
  is_writable : Bool

/-- Modelled from the spec: `TransactionInstruction`
(`solana/transaction.py`, not under src/): program id, ordered account
references and the encoded data blob. -/
structure TransactionInstruction where
  keys : List AccountMeta
  program_id : PublicKey
  data : List Nat

/-- Modelled from the spec: `Transaction` (`solana/transaction.py`, not
under src/): a fee payer and an ordered instruction list. -/
structure Transaction where
  fee_payer : Option PublicKey
  instructions : List TransactionInstruction

/-- `Transaction.add(*args)` appends the given instructions in order. -/
def Transaction.add (t : Transaction) (ixs : List TransactionInstruction) :
    Transaction :=
  { t with instructions := t.instructions ++ ixs }

/-- `InitializeStakeParams` named tuple (four required fields, no
defaults). -/
structure InitializeStakeParams where
  from_pubkey : PublicKey
  stake_pubkey : PublicKey
  authorized : Authorized
  lockup : Lockup

/-- Keyword construction of `InitializeStakeParams`: a Python named
tuple raises `TypeError` when a required field is missing, which is
modelled as `none`.  `create_account_and_delegate_stake` performs
exactly such a call without `from_pubkey`. -/
def InitializeStakeParams.fromKwargs (from_pubkey stake_pubkey : Option PublicKey)
    (authorized : Option Authorized) (lockup : Option Lockup) :
    Option InitializeStakeParams :=
  match from_pubkey, stake_pubkey, authorized, lockup with
  | some f, some s, some a, some l => some ⟨f, s, a, l⟩
  | _, _, _, _ => none

/-- `CreateStakeAccountParams` named tuple. -/
structure CreateStakeAccountParams where
  from_pubkey : PublicKey
  stake_pubkey : PublicKey
  authorized : Authorized
  lockup : Lockup
  lamports : Nat

/-- `CreateStakeAccountWithSeedParams` named tuple; the seed string is
modelled by its byte string. -/
structure CreateStakeAccountWithSeedParams where
  from_pubkey : PublicKey
  stake_pubkey : PublicKey
  base_pubkey : PublicKey
  seed : List Nat
  authorized : Authorized
  lockup : Lockup
  lamports : Nat

/-- `DelegateStakeParams` named tuple. -/
structure DelegateStakeParams where
  stake_pubkey : PublicKey
  authorized_pubkey : PublicKey
  vote_pubkey : PublicKey

/-- `DeactivateStakeParams` named tuple. -/
structure DeactivateStakeParams where
  stake_pubkey : PublicKey
  authorized_pubkey : PublicKey

/-- `CreateAccountAndDelegateStakeParams` named tuple.  Note it has no
`authorized_pubkey` field. -/
structure CreateAccountAndDelegateStakeParams where
  from_pubkey : PublicKey
  stake_pubkey : PublicKey
  vote_pubkey : PublicKey
  authorized : Authorized
  lockup : Lockup
  lamports : Nat

/-- `CreateAccountWithSeedAndDelegateStakeParams` named tuple.  Note it
has no `authorized_pubkey` field. -/
structure CreateAccountWithSeedAndDelegateStakeParams where
  from_pubkey : PublicKey
  stake_pubkey : PublicKey
  base_pubkey : PublicKey
  seed : List Nat
  vote_pubkey : PublicKey
  authorized : Authorized
  lockup : Lockup
  lamports : Nat

/-- `WithdrawStakeParams` named tuple. -/
structure WithdrawStakeParams where
  stake_pubkey : PublicKey
  withdrawer_pubkey : PublicKey
  to_pubkey : PublicKey
  lamports : Nat
  custodian_pubkey : PublicKey

/-- Modelled from the spec: `CreateAccountParams`
(`solana/system_program.py`, not under src/). -/
structure CreateAccountParams where
  from_pubkey : PublicKey
  new_account_pubkey : PublicKey
  lamports : Nat
  space : Nat
  program_id : PublicKey

/-- Modelled from the spec: `CreateAccountWithSeedParams`
(`solana/system_program.py`, not under src/). -/
structure CreateAccountWithSeedParams where
  from_pubkey : PublicKey
  new_account_pubkey : PublicKey
  base_pubkey : PublicKey
  seed : List Nat
  lamports : Nat
  space : Nat
  program_id : PublicKey

/-- Modelled from the spec: `create_account` (`solana/system_program.py`,
not under src/): the account-allocation collaborator taking payer,
new-account key, funding amount, byte span and owning program, and
returning an instruction addressed to the System program whose data
encodes the system CreateAccount variant (discriminant 0, then lamports
and space as u64 LE, then the 32-byte owner). -/
def create_account (p : CreateAccountParams) : Option TransactionInstruction :=
  if p.lamports < 2 ^ 64 ∧ p.space < 2 ^ 64 then
    some
      { keys := [⟨p.from_pubkey, true, true⟩, ⟨p.new_account_pubkey, true, true⟩],
        program_id := SYS_PROGRAM_ID,
        data := leBytes 4 0 ++ leBytes 8 p.lamports ++ leBytes 8 p.space ++
          p.program_id.bytes }
  else none

/-- Modelled from the spec: `create_account_with_seed`
(`solana/system_program.py`, not under src/): the seeded variant of the
account-allocation collaborator (discriminant 3, base key,
length-prefixed seed, lamports, space, owner). -/
def create_account_with_seed (p : CreateAccountWithSeedParams) :
    Option TransactionInstruction :=
  if p.lamports < 2 ^ 64 ∧ p.space < 2 ^ 64 ∧ p.seed.length < 2 ^ 64 then
    some
      { keys := [⟨p.from_pubkey, true, true⟩, ⟨p.new_account_pubkey, false, true⟩],
        program_id := SYS_PROGRAM_ID,
        data := leBytes 4 3 ++ p.base_pubkey.bytes ++ leBytes 8 p.seed.length ++
          p.seed ++ leBytes 8 p.lamports ++ leBytes 8 p.space ++
          p.program_id.bytes }
  else none

/-- `withdraw_stake` from `stake_program.py`: data is
`encode(WITHDRAW_STAKE, {lamports})`; the key list is the stake account
(signer, writable) followed by `to_pubkey` four times (non-signer,
writable); the program id is `SYS_PROGRAM_ID`. -/
def withdraw_stake (params : WithdrawStakeParams) :
    Option TransactionInstruction :=
  (stakeBuild StakeInstructionType.WITHDRAW_STAKE
      (.withdrawArgs params.lamports)).map fun data =>
    { keys := [⟨params.stake_pubkey, true, true⟩,
        ⟨params.to_pubkey, false, true⟩,
        ⟨params.to_pubkey, false, true⟩,
        ⟨params.to_pubkey, false, true⟩,
        ⟨params.to_pubkey, false, true⟩],
      program_id := SYS_PROGRAM_ID,
      data := data }

/-- `delegate_stake_instruction` from `stake_program.py`. -/
def delegate_stake_instruction (params : DelegateStakeParams) :
    Option TransactionInstruction :=
  (stakeBuild StakeInstructionType.DELEGATE_STAKE .empty).map fun data =>
    { keys := [⟨params.stake_pubkey, false, true⟩,
        ⟨params.vote_pubkey, false, false⟩,
        ⟨SYSVAR_CLOCK_PUBKEY, false, false⟩,
        ⟨SYSVAR_STAKE_HISTORY_PUBKEY, false, false⟩,
        ⟨CONFIG_STAKE_PUBKEY, false, false⟩,
        ⟨params.authorized_pubkey, true, false⟩],
      program_id := STAKE_PROGRAM_ID,
      data := data }

/-- `delegate_stake` from `stake_program.py`: wraps the instruction in a
fresh transaction. -/
def delegate_stake (params : DelegateStakeParams) : Option Transaction :=
  (delegate_stake_instruction params).map fun ix =>
    (Transaction.mk none []).add [ix]

/-- `initialize_stake` from `stake_program.py`: data is
`encode(INITIALIZE_STAKE_ACCOUNT, {authorized, lockup})`; keys are the
stake account (signer, writable) and the rent sysvar (read-only). -/
def initialize_stake (params : InitializeStakeParams) :
    Option TransactionInstruction :=
  (stakeBuild StakeInstructionType.INITIALIZE_STAKE_ACCOUNT
      (.initArgs params.authorized params.lockup)).map fun data =>
    { keys := [⟨params.stake_pubkey, true, true⟩,
        ⟨SYSVAR_RENT_PUBKEY, false, false⟩],
      program_id := STAKE_PROGRAM_ID,
      data := data }

/-- `deactivate_stake_instruction` from `stake_program.py`: data is
`encode(DEACTIVATE, {})`. -/
def deactivate_stake_instruction (params : DeactivateStakeParams) :
    Option TransactionInstruction :=
  (stakeBuild StakeInstructionType.DEACTIVATE .empty).map fun data =>
    { keys := [⟨params.stake_pubkey, false, true⟩,
        ⟨SYSVAR_CLOCK_PUBKEY, false, false⟩,
        ⟨params.authorized_pubkey, true, false⟩],
      program_id := STAKE_PROGRAM_ID,
      data := data }

/-- `deactivate_stake` from `stake_program.py`. -/
def deactivate_stake (params : DeactivateStakeParams) : Option Transaction :=
  (deactivate_stake_instruction params).map fun ix =>
    (Transaction.mk none []).add [ix]

/-- The `Union[...]` argument type of `_create_stake_account_instruction`
in `stake_program.py`: one constructor per member of the union, matching
the `isinstance` dispatch. -/
inductive StakeCreationAny where
  | plain (p : CreateStakeAccountParams)
  | seeded (p : CreateStakeAccountWithSeedParams)
  | plainDelegate (p : CreateAccountAndDelegateStakeParams)
  | seededDelegate (p : CreateAccountWithSeedAndDelegateStakeParams)

/-- `_create_stake_account_instruction` from `stake_program.py`:
`CreateStakeAccountParams` and `CreateAccountAndDelegateStakeParams` go
to `create_account`, the seeded records to `create_account_with_seed`;
either way with `space=200` and `program_id=STAKE_PROGRAM_ID`. -/
def _create_stake_account_instruction (params : StakeCreationAny) :
    Option TransactionInstruction :=
  match params with
  | .plain p =>
    create_account ⟨p.from_pubkey, p.stake_pubkey, p.lamports, 200, STAKE_PROGRAM_ID⟩
  | .plainDelegate p =>
    create_account ⟨p.from_pubkey, p.stake_pubkey, p.lamports, 200, STAKE_PROGRAM_ID⟩
  | .seeded p =>
    create_account_with_seed
      ⟨p.from_pubkey, p.stake_pubkey, p.base_pubkey, p.seed, p.lamports, 200,
        STAKE_PROGRAM_ID⟩
  | .seededDelegate p =>
    create_account_with_seed
      ⟨p.from_pubkey, p.stake_pubkey, p.base_pubkey, p.seed, p.lamports, 200,
        STAKE_PROGRAM_ID⟩

/-- The `Union[CreateStakeAccountParams, CreateStakeAccountWithSeedParams]`
argument type of `create_stake_account`. -/
inductive CreateStakeAccountAny where
  | plain (p : CreateStakeAccountParams)
  | seeded (p : CreateStakeAccountWithSeedParams)

def CreateStakeAccountAny.from_pubkey : CreateStakeAccountAny → PublicKey
  | .plain p => p.from_pubkey
  | .seeded p => p.from_pubkey

def CreateStakeAccountAny.stake_pubkey : CreateStakeAccountAny → PublicKey
  | .plain p => p.stake_pubkey
  | .seeded p => p.stake_pubkey

def CreateStakeAccountAny.authorized : CreateStakeAccountAny → Authorized
  | .plain p => p.authorized
  | .seeded p => p.authorized

def CreateStakeAccountAny.lockup : CreateStakeAccountAny → Lockup
  | .plain p => p.lockup
  | .seeded p => p.lockup

def CreateStakeAccountAny.toCreation : CreateStakeAccountAny → StakeCreationAny
  | .plain p => .plain p
  | .seeded p => .seeded p

/-- `create_stake_account` from `stake_program.py`: computes the
initialize instruction (this time passing `from_pubkey`), then the
allocation instruction, and returns `Transaction().add(create, init)` —
allocation first, initialize second. -/
def create_stake_account (params : CreateStakeAccountAny) : Option Transaction :=
  (initialize_stake
      ⟨params.from_pubkey, params.stake_pubkey, params.authorized,
        params.lockup⟩).bind fun init_ix =>
    (_create_stake_account_instruction params.toCreation).map fun create_ix =>
      (Transaction.mk none []).add [create_ix, init_ix]

/-- The `Union[CreateAccountAndDelegateStakeParams,
CreateAccountWithSeedAndDelegateStakeParams]` argument type of
`create_account_and_delegate_stake`. -/
inductive CreateAndDelegateAny where
  | plain (p : CreateAccountAndDelegateStakeParams)
  | seeded (p : CreateAccountWithSeedAndDelegateStakeParams)

def CreateAndDelegateAny.from_pubkey : CreateAndDelegateAny → PublicKey
  | .plain p => p.from_pubkey
  | .seeded p => p.from_pubkey

def CreateAndDelegateAny.stake_pubkey : CreateAndDelegateAny → PublicKey
  | .plain p => p.stake_pubkey
  | .seeded p => p.stake_pubkey

def CreateAndDelegateAny.vote_pubkey : CreateAndDelegateAny → PublicKey
  | .plain p => p.vote_pubkey
  | .seeded p => p.vote_pubkey

def CreateAndDelegateAny.authorized : CreateAndDelegateAny → Authorized
  | .plain p => p.authorized
  | .seeded p => p.authorized

def CreateAndDelegateAny.lockup : CreateAndDelegateAny → Lockup
  | .plain p => p.lockup
  | .seeded p => p.lockup

def CreateAndDelegateAny.toCreation : CreateAndDelegateAny → StakeCreationAny
  | .plain p => .plainDelegate p
  | .seeded p => .seededDelegate p

/-- `create_account_and_delegate_stake` from `stake_program.py`, step by
step in source order.  Its first statement constructs
`InitializeStakeParams` with keyword arguments `stake_pubkey`,
`authorized` and `lockup` only — the required `from_pubkey` is absent,
so the named-tuple constructor fails (Python `TypeError`) before
anything else runs.  Were it to continue, it would compute the
allocation instruction, read the non-existent `authorized_pubkey`
attribute (a second failure point, modelled as `none`), build the
delegate transaction into an unused local, and finally return a
transaction holding only the allocation and initialize instructions. -/
def create_account_and_delegate_stake (params : CreateAndDelegateAny) :
    Option Transaction :=
  (InitializeStakeParams.fromKwargs none (some params.stake_pubkey)
      (some params.authorized) (some params.lockup)).bind fun init_params =>
    (initialize_stake init_params).bind fun init_ix =>
      (_create_stake_account_instruction params.toCreation).bind fun create_ix =>
        (none : Option PublicKey).bind fun authorized_pubkey =>
          (delegate_stake
              ⟨params.stake_pubkey, authorized_pubkey,
                params.vote_pubkey⟩).map fun _delegate_tx =>
            (Transaction.mk (some params.from_pubkey) []).add
              [create_ix, init_ix]

theorem stakeBuild_deactivate :
    stakeBuild StakeInstructionType.DEACTIVATE .empty = some [2, 0, 0, 0] := rfl

theorem stakeBuild_delegate :
    stakeBuild StakeInstructionType.DELEGATE_STAKE .empty = some [1, 0, 0, 0] := rfl

theorem stakeBuild_withdraw (x : Nat) (h : x < 2 ^ 64) :
    stakeBuild StakeInstructionType.WITHDRAW_STAKE (.withdrawArgs x)
      = some ([3, 0, 0, 0] ++ leBytes 8 x) := by
  have e : stakeBuild StakeInstructionType.WITHDRAW_STAKE (.withdrawArgs x)
      = (if x < 2 ^ 64 then some (leBytes 8 x) else none).map
          fun payload => leBytes 4 3 ++ payload := rfl
  rw [e, if_pos h, Option.map_some']
  rfl

/-- Payload bytes of a valid Initialize build: the two authority keys,
the two's-complement timestamp, the epoch and the custodian key. -/
def initPayload (a : Authorized) (l : Lockup) : List Nat :=
  a.staker.bytes ++ a.withdrawer.bytes ++
    leBytes 8 ((l.unix_timestamp % (2 ^ 64 : Int)).toNat) ++
    leBytes 8 l.epoch ++ l.custodian.bytes

theorem initPayload_length (a : Authorized) (l : Lockup) :
    (initPayload a l).length = 112 := by
  simp [initPayload, leBytes_length, PublicKey.bytes_length]

theorem stakeBuild_init_eq (a : Authorized) (l : Lockup)
    (h1 : -(2 ^ 63) ≤ l.unix_timestamp) (h2 : l.unix_timestamp < 2 ^ 63)
    (h3 : l.epoch < 2 ^ 64) :
    stakeBuild StakeInstructionType.INITIALIZE_STAKE_ACCOUNT (.initArgs a l)
      = some ([0, 0, 0, 0] ++ initPayload a l) := by
  have e : stakeBuild StakeInstructionType.INITIALIZE_STAKE_ACCOUNT (.initArgs a l)
      = ((i64Bytes l.unix_timestamp).bind fun ts =>
          (if l.epoch < 2 ^ 64 then some (leBytes 8 l.epoch) else none).bind fun ep =>
            some (a.staker.bytes ++ a.withdrawer.bytes ++ ts ++ ep ++
              l.custodian.bytes)).map fun payload => leBytes 4 0 ++ payload := rfl
  rw [e]
  unfold i64Bytes
  rw [if_pos ⟨h1, h2⟩, Option.some_bind, if_pos h3, Option.some_bind,
    Option.map_some']
  rfl

theorem takeBytes_pubkey (k : PublicKey) (X : List Nat) :
    takeBytes 32 (k.bytes ++ X) = some (k.bytes, X) := by
  conv_lhs => rw [← PublicKey.bytes_length k]
  exact takeBytes_append _ _

theorem pow_256_8 : (256 : Nat) ^ 8 = 2 ^ 64 := by norm_num

theorem initializeLayoutParse_round (a : Authorized) (l : Lockup) (rest : List Nat)
    (h1 : -(2 ^ 63) ≤ l.unix_timestamp) (h2 : l.unix_timestamp < 2 ^ 63)
    (h3 : l.epoch < 2 ^ 64) :
    initializeLayoutParse (initPayload a l ++ rest)
      = some (.initP a.staker.bytes a.withdrawer.bytes l.unix_timestamp l.epoch
          l.custodian.bytes, rest) := by
  have hm : (l.unix_timestamp % (2 ^ 64 : Int)).toNat < 256 ^ 8 := by
    rw [pow_256_8]; exact i64Bits_lt _
  have he : l.epoch < 256 ^ 8 := by rw [pow_256_8]; exact h3
  have p3 : ∀ X : List Nat,
      leParse 8 (leBytes 8 ((l.unix_timestamp % (2 ^ 64 : Int)).toNat) ++ X)
        = some ((l.unix_timestamp % (2 ^ 64 : Int)).toNat, X) :=
    fun X => leParse_leBytes_of_lt _ _ _ hm
  have p4 : ∀ X : List Nat, leParse 8 (leBytes 8 l.epoch ++ X) = some (l.epoch, X) :=
    fun X => leParse_leBytes_of_lt _ _ _ he
  unfold initializeLayoutParse initPayload
  simp only [List.append_assoc, takeBytes_pubkey, Option.some_bind, p3, p4,
    Option.map_some']
  rw [i64FromBits_round _ h1 h2]

theorem stakeSwitchParse_init (s : List Nat) :
    stakeSwitchParse 0 s = initializeLayoutParse s := rfl

theorem stakeSwitchParse_withdraw (s : List Nat) :
    stakeSwitchParse 3 s
      = (leParse 8 s).map fun p => (.withdrawP p.1, p.2) := rfl

theorem stakeDecode_build_init (a : Authorized) (l : Lockup)
    (h1 : -(2 ^ 63) ≤ l.unix_timestamp) (h2 : l.unix_timestamp < 2 ^ 63)
    (h3 : l.epoch < 2 ^ 64) :
    stakeDecode ([0, 0, 0, 0] ++ initPayload a l)
      = some (0, .initP a.staker.bytes a.withdrawer.bytes l.unix_timestamp
          l.epoch l.custodian.bytes) := by
  unfold stakeDecode stakeParseStream
  have h4 : leParse 4 ([0, 0, 0, 0] ++ initPayload a l)
      = some (0, initPayload a l) :=
    leParse_leBytes_of_lt 4 0 _ (by norm_num)
  rw [h4, Option.some_bind]
  simp only []
  rw [stakeSwitchParse_init]
  have h5 := initializeLayoutParse_round a l [] h1 h2 h3
  rw [List.append_nil] at h5
  rw [h5, Option.map_some']
  rfl

theorem stakeDecode_build_withdraw (x : Nat) (h : x < 2 ^ 64) :
    stakeDecode ([3, 0, 0, 0] ++ leBytes 8 x) = some (3, .withdrawP x) := by
  unfold stakeDecode stakeParseStream
  have h4 : leParse 4 ([3, 0, 0, 0] ++ leBytes 8 x) = some (3, leBytes 8 x) :=
    leParse_leBytes_of_lt 4 3 _ (by norm_num)
  rw [h4, Option.some_bind]
  simp only []
  rw [stakeSwitchParse_withdraw]
  have h8 : leParse 8 (leBytes 8 x ++ []) = some (x, []) :=
    leParse_leBytes_of_lt 8 x [] (by rw [pow_256_8]; exact h)
  rw [List.append_nil] at h8
  rw [h8, Option.map_some', Option.map_some']
  rfl

theorem stakeDecode_too_short (s : List Nat) (h : s.length < 4) :
    stakeDecode s = none := by
  unfold stakeDecode stakeParseStream
  rw [leParse_short 4 s h]
  rfl

theorem initializeLayoutParse_length (t : List Nat) (a : ParsedStakeArgs)
    (r : List Nat) (h : initializeLayoutParse t = some (a, r)) :
    t.length = 112 + r.length := by
  unfold initializeLayoutParse at h
  cases e1 : takeBytes 32 t with
  | none => rw [e1] at h; exact absurd h (by simp)
  | some p1 =>
    rw [e1, Option.some_bind] at h
    cases e2 : takeBytes 32 p1.2 with
    | none => rw [e2] at h; exact absurd h (by simp)
    | some p2 =>
      rw [e2, Option.some_bind] at h
      cases e3 : leParse 8 p2.2 with
      | none => rw [e3] at h; exact absurd h (by simp)
      | some p3 =>
        rw [e3, Option.some_bind] at h
        cases e4 : leParse 8 p3.2 with
        | none => rw [e4] at h; exact absurd h (by simp)
        | some p4 =>
          rw [e4, Option.some_bind] at h
          cases e5 : takeBytes 32 p4.2 with
          | none => rw [e5] at h; exact absurd h (by simp)
          | some p5 =>
            rw [e5, Option.map_some'] at h
            have hr : p5.2 = r := by simpa using congrArg Prod.snd (Option.some.inj h)
            have l1 := (takeBytes_length _ _ _ _ e1).1
            have l2 := (takeBytes_length _ _ _ _ e2).1
            have l3 := leParse_length _ _ _ _ e3
            have l4 := leParse_length _ _ _ _ e4
            have l5 := (takeBytes_length _ _ _ _ e5).1
            rw [hr] at l5
            omega

theorem stakeDecode_init_short (rest : List Nat) (h : rest.length < 112) :
    stakeDecode ([0, 0, 0, 0] ++ rest) = none := by
  unfold stakeDecode stakeParseStream
  have h4 : leParse 4 ([0, 0, 0, 0] ++ rest) = some (0, rest) :=
    leParse_leBytes_of_lt 4 0 _ (by norm_num)
  rw [h4, Option.some_bind]
  simp only []
  rw [stakeSwitchParse_init]
  cases e : initializeLayoutParse rest with
  | none => rfl
  | some p =>
    exfalso
    have := initializeLayoutParse_length rest p.1 p.2 (by rw [e])
    omega

theorem stakeDecode_withdraw_short (rest : List Nat) (h : rest.length < 8) :
    stakeDecode ([3, 0, 0, 0] ++ rest) = none := by
  unfold stakeDecode stakeParseStream
  have h4 : leParse 4 ([3, 0, 0, 0] ++ rest) = some (3, rest) :=
    leParse_leBytes_of_lt 4 3 _ (by norm_num)
  rw [h4, Option.some_bind]
  simp only []
  rw [stakeSwitchParse_withdraw]
  rw [leParse_short 8 rest h]
  rfl

/-- Concrete 32-byte key used in witness instantiations. -/
def sampleKey (b : Nat) : PublicKey := ⟨List.replicate 32 b, by simp⟩

def sampleAuthorized : Authorized := ⟨sampleKey 1, sampleKey 2⟩

def sampleLockup : Lockup := ⟨-5, 7, sampleKey 3⟩

def sampleWithdrawParams : WithdrawStakeParams :=
  ⟨sampleKey 10, sampleKey 11, sampleKey 12, 5000, sampleKey 13⟩

def sampleInitializeParams : InitializeStakeParams :=
  ⟨sampleKey 20, sampleKey 21, sampleAuthorized, sampleLockup⟩

def sampleCreateParams : CreateStakeAccountParams :=
  ⟨sampleKey 30, sampleKey 31, sampleAuthorized, sampleLockup, 4321⟩

def sampleCreateSeedParams : CreateStakeAccountWithSeedParams :=
  ⟨sampleKey 32, sampleKey 33, sampleKey 34, [115, 101, 101, 100],
    sampleAuthorized, sampleLockup, 9876⟩

def sampleCreateAndDelegateParams : CreateAndDelegateAny :=
  .plain ⟨sampleKey 4, sampleKey 5, sampleKey 6, sampleAuthorized,
    sampleLockup, 1000⟩

/-- C1: for the Deactivate variant, encoding the empty payload succeeds
and yields exactly the 4 bytes `[02 00 00 00]` — the discriminant 2 has
no entry in the Switch case table, so building falls through to the
`Pass` default, which writes nothing — and every `DeactivateStakeParams`
makes `deactivate_stake_instruction` produce a data blob equal to those
4 bytes. -/
theorem deactivate_encode_discriminant_only :
    stakeBuild StakeInstructionType.DEACTIVATE .empty = some [2, 0, 0, 0] ∧
    ∀ params : DeactivateStakeParams,
      (deactivate_stake_instruction params).map TransactionInstruction.data
        = some [2, 0, 0, 0] :=
  ⟨rfl, fun _ => rfl⟩

/-- C10: `create_account_and_delegate_stake` fails on every input and
never returns a transaction: its first statement constructs
`InitializeStakeParams` without the required `from_pubkey` field, so the
named-tuple constructor fails before any instruction sequence is
produced. -/
theorem create_account_and_delegate_stake_always_fails
    (params : CreateAndDelegateAny) :
    create_account_and_delegate_stake params = none := rfl

/-- C3: evaluation at a concrete parameter record.  The claim says the
composite returns an instruction sequence containing only the allocation
and initialize instructions; in fact the call fails (missing
`from_pubkey` when constructing `InitializeStakeParams`) and returns no
sequence at all — the delegate instruction is indeed never appended, but
neither is anything else. -/
theorem create_account_and_delegate_stake_fails_on_sample :
    create_account_and_delegate_stake sampleCreateAndDelegateParams = none := rfl

/-- C7: for every `DelegateStakeParams`, the delegate builder returns an
instruction addressed to the Stake program whose 6 account references
are, in order: stake account (writable), vote account (read-only),
clock sysvar (read-only), stake-history sysvar (read-only), stake
config (read-only), authority (signer, read-only); the authority is the
only signer and the last entry; and the data is
`encode(DELEGATE_STAKE, {}) = [01 00 00 00]`. -/
theorem delegate_stake_instruction_account_shape (params : DelegateStakeParams) :
    delegate_stake_instruction params = some
      { keys := [⟨params.stake_pubkey, false, true⟩,
          ⟨params.vote_pubkey, false, false⟩,
          ⟨SYSVAR_CLOCK_PUBKEY, false, false⟩,
          ⟨SYSVAR_STAKE_HISTORY_PUBKEY, false, false⟩,
          ⟨CONFIG_STAKE_PUBKEY, false, false⟩,
          ⟨params.authorized_pubkey, true, false⟩],
        program_id := STAKE_PROGRAM_ID,
        data := [1, 0, 0, 0] } ∧
    stakeBuild StakeInstructionType.DELEGATE_STAKE .empty = some [1, 0, 0, 0] ∧
    ∀ ix, delegate_stake_instruction params = some ix →
      ix.keys.length = 6 ∧
      (ix.keys.filter AccountMeta.is_signer).map AccountMeta.pubkey
        = [params.authorized_pubkey] ∧
      ix.keys.getLast? = some ⟨params.authorized_pubkey, true, false⟩ := by
  refine ⟨rfl, rfl, ?_⟩
  intro ix h
  rw [show delegate_stake_instruction params = some
      { keys := [⟨params.stake_pubkey, false, true⟩,
          ⟨params.vote_pubkey, false, false⟩,
          ⟨SYSVAR_CLOCK_PUBKEY, false, false⟩,
          ⟨SYSVAR_STAKE_HISTORY_PUBKEY, false, false⟩,
          ⟨CONFIG_STAKE_PUBKEY, false, false⟩,
          ⟨params.authorized_pubkey, true, false⟩],
        program_id := STAKE_PROGRAM_ID,
        data := [1, 0, 0, 0] } from rfl] at h
  cases h
  exact ⟨rfl, rfl, rfl⟩

/-- C2: for every `WithdrawStakeParams` with an encodable lamports value,
`withdraw_stake` returns an instruction whose program id is the System
(account-creation) program id — not the Stake program id — whose account
list is the stake account in slot 0 (signer, writable) followed by the
destination key repeated across four (non-signer, writable) slots, and
whose data is `encode(WITHDRAW_STAKE, {lamports})`: 12 bytes,
`[03 00 00 00]` then lamports as u64 LE. -/
theorem withdraw_stake_targets_system_program (params : WithdrawStakeParams)
    (h : params.lamports < 2 ^ 64) :
    withdraw_stake params = some
      { keys := [⟨params.stake_pubkey, true, true⟩,
          ⟨params.to_pubkey, false, true⟩,
          ⟨params.to_pubkey, false, true⟩,
          ⟨params.to_pubkey, false, true⟩,
          ⟨params.to_pubkey, false, true⟩],
        program_id := SYS_PROGRAM_ID,
        data := [3, 0, 0, 0] ++ leBytes 8 params.lamports } ∧
    SYS_PROGRAM_ID ≠ STAKE_PROGRAM_ID ∧
    stakeBuild StakeInstructionType.WITHDRAW_STAKE (.withdrawArgs params.lamports)
      = some ([3, 0, 0, 0] ++ leBytes 8 params.lamports) ∧
    ([3, 0, 0, 0] ++ leBytes 8 params.lamports).length = 12 := by
  have hb := stakeBuild_withdraw params.lamports h
  refine ⟨?_, by decide, hb, ?_⟩
  · unfold withdraw_stake
    rw [hb, Option.map_some']
  · simp [leBytes_length]

/-- C2 witness: the theorem applied at a concrete parameter record. -/
theorem withdraw_stake_targets_system_program_witness :
    sampleWithdrawParams.lamports < 2 ^ 64 ∧
    (withdraw_stake sampleWithdrawParams = some
      { keys := [⟨sampleWithdrawParams.stake_pubkey, true, true⟩,
          ⟨sampleWithdrawParams.to_pubkey, false, true⟩,
          ⟨sampleWithdrawParams.to_pubkey, false, true⟩,
          ⟨sampleWithdrawParams.to_pubkey, false, true⟩,
          ⟨sampleWithdrawParams.to_pubkey, false, true⟩],
        program_id := SYS_PROGRAM_ID,
        data := [3, 0, 0, 0] ++ leBytes 8 sampleWithdrawParams.lamports } ∧
    SYS_PROGRAM_ID ≠ STAKE_PROGRAM_ID ∧
    stakeBuild StakeInstructionType.WITHDRAW_STAKE
        (.withdrawArgs sampleWithdrawParams.lamports)
      = some ([3, 0, 0, 0] ++ leBytes 8 sampleWithdrawParams.lamports) ∧
    ([3, 0, 0, 0] ++ leBytes 8 sampleWithdrawParams.lamports).length = 12) :=
  ⟨by decide, withdraw_stake_targets_system_program sampleWithdrawParams (by decide)⟩

/-- C8: for every `InitializeStakeParams` with an encodable lockup, the
initialize builder returns an instruction addressed to the Stake program
with exactly 2 account references — stake account (signer, writable)
then rent sysvar (read-only) — and data equal to
`encode(INITIALIZE_STAKE_ACCOUNT, {authorized, lockup})`. -/
theorem initialize_stake_account_shape (params : InitializeStakeParams)
    (h1 : -(2 ^ 63) ≤ params.lockup.unix_timestamp)
    (h2 : params.lockup.unix_timestamp < 2 ^ 63)
    (h3 : params.lockup.epoch < 2 ^ 64) :
    ∃ d, stakeBuild StakeInstructionType.INITIALIZE_STAKE_ACCOUNT
        (.initArgs params.authorized params.lockup) = some d ∧
      initialize_stake params = some
        { keys := [⟨params.stake_pubkey, true, true⟩,
            ⟨SYSVAR_RENT_PUBKEY, false, false⟩],
          program_id := STAKE_PROGRAM_ID,
          data := d } := by
  refine ⟨[0, 0, 0, 0] ++ initPayload params.authorized params.lockup,
    stakeBuild_init_eq _ _ h1 h2 h3, ?_⟩
  unfold initialize_stake
  rw [stakeBuild_init_eq _ _ h1 h2 h3, Option.map_some']

/-- C8 witness: the theorem applied at a concrete parameter record. -/
theorem initialize_stake_account_shape_witness :
    (-(2 ^ 63) ≤ sampleInitializeParams.lockup.unix_timestamp ∧
     sampleInitializeParams.lockup.unix_timestamp < 2 ^ 63 ∧
     sampleInitializeParams.lockup.epoch < 2 ^ 64) ∧
    ∃ d, stakeBuild StakeInstructionType.INITIALIZE_STAKE_ACCOUNT
        (.initArgs sampleInitializeParams.authorized
          sampleInitializeParams.lockup) = some d ∧
      initialize_stake sampleInitializeParams = some
        { keys := [⟨sampleInitializeParams.stake_pubkey, true, true⟩,
            ⟨SYSVAR_RENT_PUBKEY, false, false⟩],
          program_id := STAKE_PROGRAM_ID,
          data := d } :=
  ⟨⟨by decide, by decide, by decide⟩,
    initialize_stake_account_shape sampleInitializeParams (by decide)
      (by decide) (by decide)⟩

/-- C4: decode is a left inverse of encode for the three variants in the
Switch case table.  For Initialize the decoded payload carries back the
original field values (keys as their raw bytes, the timestamp through
its two's-complement image); for Delegate the empty payload decodes to
the `Pass` result `None`, the codec's representation of the empty
payload; for Withdraw the lamports value comes back exactly. -/
theorem stake_layout_round_trip (a : Authorized) (l : Lockup) (x : Nat)
    (h1 : -(2 ^ 63) ≤ l.unix_timestamp) (h2 : l.unix_timestamp < 2 ^ 63)
    (h3 : l.epoch < 2 ^ 64) (h4 : x < 2 ^ 64) :
    (stakeBuild StakeInstructionType.INITIALIZE_STAKE_ACCOUNT
        (.initArgs a l)).bind stakeDecode
      = some (0, .initP a.staker.bytes a.withdrawer.bytes l.unix_timestamp
          l.epoch l.custodian.bytes) ∧
    (stakeBuild StakeInstructionType.DELEGATE_STAKE .empty).bind stakeDecode
      = some (1, .noneP) ∧
    (stakeBuild StakeInstructionType.WITHDRAW_STAKE
        (.withdrawArgs x)).bind stakeDecode
      = some (3, .withdrawP x) := by
  refine ⟨?_, by decide, ?_⟩
  · rw [stakeBuild_init_eq a l h1 h2 h3, Option.some_bind]
    exact stakeDecode_build_init a l h1 h2 h3
  · rw [stakeBuild_withdraw x h4, Option.some_bind]
    exact stakeDecode_build_withdraw x h4

/-- C4 witness: the round trip at concrete payloads. -/
theorem stake_layout_round_trip_witness :
    (-(2 ^ 63) ≤ sampleLockup.unix_timestamp ∧
     sampleLockup.unix_timestamp < 2 ^ 63 ∧
     sampleLockup.epoch < 2 ^ 64 ∧ (5000 : Nat) < 2 ^ 64) ∧
    ((stakeBuild StakeInstructionType.INITIALIZE_STAKE_ACCOUNT
        (.initArgs sampleAuthorized sampleLockup)).bind stakeDecode
      = some (0, .initP sampleAuthorized.staker.bytes
          sampleAuthorized.withdrawer.bytes sampleLockup.unix_timestamp
          sampleLockup.epoch sampleLockup.custodian.bytes) ∧
    (stakeBuild StakeInstructionType.DELEGATE_STAKE .empty).bind stakeDecode
      = some (1, .noneP) ∧
    (stakeBuild StakeInstructionType.WITHDRAW_STAKE
        (.withdrawArgs 5000)).bind stakeDecode
      = some (3, .withdrawP 5000)) :=
  ⟨⟨by decide, by decide, by decide, by decide⟩,
    stake_layout_round_trip sampleAuthorized sampleLockup 5000 (by decide)
      (by decide) (by decide) (by decide)⟩

/-- C6: the encoded data length is fixed per variant and never
data-dependent: 116 bytes for Initialize, 4 for Delegate, 12 for
Withdraw — always 4 plus the variant's fixed payload width. -/
theorem stake_encode_fixed_length (a : Authorized) (l : Lockup) (x : Nat)
    (h1 : -(2 ^ 63) ≤ l.unix_timestamp) (h2 : l.unix_timestamp < 2 ^ 63)
    (h3 : l.epoch < 2 ^ 64) (h4 : x < 2 ^ 64) :
    (stakeBuild StakeInstructionType.INITIALIZE_STAKE_ACCOUNT
        (.initArgs a l)).map List.length = some 116 ∧
    (stakeBuild StakeInstructionType.DELEGATE_STAKE .empty).map List.length
      = some 4 ∧
    (stakeBuild StakeInstructionType.WITHDRAW_STAKE
        (.withdrawArgs x)).map List.length = some 12 := by
  refine ⟨?_, rfl, ?_⟩
  · rw [stakeBuild_init_eq a l h1 h2 h3, Option.map_some']
    simp [initPayload_length]
  · rw [stakeBuild_withdraw x h4, Option.map_some']
    simp [leBytes_length]

/-- C6 witness: the fixed lengths at concrete payloads. -/
theorem stake_encode_fixed_length_witness :
    (-(2 ^ 63) ≤ sampleLockup.unix_timestamp ∧
     sampleLockup.unix_timestamp < 2 ^ 63 ∧
     sampleLockup.epoch < 2 ^ 64 ∧ (0 : Nat) < 2 ^ 64) ∧
    ((stakeBuild StakeInstructionType.INITIALIZE_STAKE_ACCOUNT
        (.initArgs sampleAuthorized sampleLockup)).map List.length
      = some 116 ∧
    (stakeBuild StakeInstructionType.DELEGATE_STAKE .empty).map List.length
      = some 4 ∧
    (stakeBuild StakeInstructionType.WITHDRAW_STAKE
        (.withdrawArgs 0)).map List.length = some 12) :=
  ⟨⟨by decide, by decide, by decide, by decide⟩,
    stake_encode_fixed_length sampleAuthorized sampleLockup 0 (by decide)
      (by decide) (by decide) (by decide)⟩

/-- C5 counterexample: a buffer whose first four bytes are FF FF FF FF —
an unknown discriminant — decodes successfully (the Switch falls back to
`Pass`, yielding a `None` payload and ignoring the trailing byte)
instead of failing as the claim requires. -/
theorem stakeDecode_unknown_discriminant_succeeds :
    stakeDecode [255, 255, 255, 255, 7] = some (4294967295, .noneP) := by decide

theorem takeBytes_of_le (n : Nat) (s : List Nat) (h : n ≤ s.length) :
    takeBytes n s = some (s.take n, s.drop n) := by
  unfold takeBytes
  rw [if_pos h]

theorem leParse_of_le (w : Nat) (s : List Nat) (h : w ≤ s.length) :
    ∃ x r, leParse w s = some (x, r) ∧ s.length = w + r.length := by
  induction w generalizing s with
  | zero => exact ⟨0, s, rfl, by omega⟩
  | succ w ih =>
    cases s with
    | nil =>
      simp only [List.length_nil] at h
      omega
    | cons b t =>
      have ht : w ≤ t.length := by
        simp only [List.length_cons] at h
        omega
      obtain ⟨x, r, e, len⟩ := ih t ht
      refine ⟨b + 256 * x, r, ?_, ?_⟩
      · have step : leParse (w + 1) (b :: t)
            = (leParse w t).map fun p => (b + 256 * p.1, p.2) := rfl
        rw [step, e, Option.map_some']
      · simp only [List.length_cons]
        omega

theorem initializeLayoutParse_of_le (t : List Nat) (h : 112 ≤ t.length) :
    ∃ p, initializeLayoutParse t = some p := by
  have l1 : (t.drop 32).length = t.length - 32 := by
    simp only [List.length_drop]
  have l2 : ((t.drop 32).drop 32).length = t.length - 64 := by
    simp only [List.length_drop]
    omega
  unfold initializeLayoutParse
  rw [takeBytes_of_le 32 t (by omega), Option.some_bind]
  simp only []
  rw [takeBytes_of_le 32 (t.drop 32) (by omega), Option.some_bind]
  simp only []
  obtain ⟨x3, r3, e3, len3⟩ := leParse_of_le 8 ((t.drop 32).drop 32) (by omega)
  rw [e3, Option.some_bind]
  simp only []
  obtain ⟨x4, r4, e4, len4⟩ := leParse_of_le 8 r3 (by omega)
  rw [e4, Option.some_bind]
  simp only []
  rw [takeBytes_of_le 32 r4 (by omega)]
  exact ⟨_, rfl⟩

theorem take_append_of_le (n : Nat) (s extra : List Nat) (h : n ≤ s.length) :
    (s ++ extra).take n = s.take n := by
  induction s generalizing n with
  | nil =>
    simp only [List.length_nil] at h
    have hn : n = 0 := by omega
    subst hn
    rfl
  | cons a t ih =>
    cases n with
    | zero => rfl
    | succ n =>
      simp only [List.cons_append, List.take_succ_cons]
      rw [ih n (by simp only [List.length_cons] at h; omega)]

theorem drop_append_of_le (n : Nat) (s extra : List Nat) (h : n ≤ s.length) :
    (s ++ extra).drop n = s.drop n ++ extra := by
  induction s generalizing n with
  | nil =>
    simp only [List.length_nil] at h
    have hn : n = 0 := by omega
    subst hn
    rfl
  | cons a t ih =>
    cases n with
    | zero => rfl
    | succ n =>
      simp only [List.cons_append, List.drop_succ_cons]
      exact ih n (by simp only [List.length_cons] at h; omega)

theorem takeBytes_append_mono (n : Nat) (s extra l r : List Nat)
    (h : takeBytes n s = some (l, r)) :
    takeBytes n (s ++ extra) = some (l, r ++ extra) := by
  unfold takeBytes at h ⊢
  split at h
  · next hn =>
    simp only [Option.some.injEq, Prod.mk.injEq] at h
    obtain ⟨hl, hr⟩ := h
    subst hl; subst hr
    rw [if_pos (by simp only [List.length_append]; omega)]
    rw [take_append_of_le n s extra hn, drop_append_of_le n s extra hn]
  · exact absurd h (by simp)

theorem leParse_append_mono (w : Nat) (s extra : List Nat) (x : Nat)
    (r : List Nat) (h : leParse w s = some (x, r)) :
    leParse w (s ++ extra) = some (x, r ++ extra) := by
  induction w generalizing s x r with
  | zero =>
    simp only [leParse, Option.some.injEq, Prod.mk.injEq] at h
    obtain ⟨hx, hs⟩ := h
    subst hx; subst hs
    rfl
  | succ w ih =>
    cases s with
    | nil => simp [leParse] at h
    | cons b t =>
      simp only [leParse, Option.map_eq_some'] at h
      obtain ⟨⟨m, r2⟩, hm, hx⟩ := h
      have hx1 : b + 256 * m = x := by simpa using congrArg Prod.fst hx
      have hx2 : r2 = r := by simpa using congrArg Prod.snd hx
      rw [hx2] at hm
      have step : leParse (w + 1) ((b :: t) ++ extra)
          = (leParse w (t ++ extra)).map fun p => (b + 256 * p.1, p.2) := rfl
      rw [step, ih t m r hm, Option.map_some']
      rw [hx1]

theorem initializeLayoutParse_append_mono (t extra : List Nat)
    (a : ParsedStakeArgs) (r : List Nat)
    (h : initializeLayoutParse t = some (a, r)) :
    initializeLayoutParse (t ++ extra) = some (a, r ++ extra) := by
  unfold initializeLayoutParse at h ⊢
  cases e1 : takeBytes 32 t with
  | none => rw [e1] at h; exact absurd h (by simp)
  | some p1 =>
    obtain ⟨l1, r1⟩ := p1
    rw [e1, Option.some_bind] at h
    simp only [] at h
    rw [takeBytes_append_mono 32 t extra l1 r1 e1, Option.some_bind]
    simp only []
    cases e2 : takeBytes 32 r1 with
    | none => rw [e2] at h; exact absurd h (by simp)
    | some p2 =>
      obtain ⟨l2, r2⟩ := p2
      rw [e2, Option.some_bind] at h
      simp only [] at h
      rw [takeBytes_append_mono 32 r1 extra l2 r2 e2, Option.some_bind]
      simp only []
      cases e3 : leParse 8 r2 with
      | none => rw [e3] at h; exact absurd h (by simp)
      | some p3 =>
        obtain ⟨x3, r3⟩ := p3
        rw [e3, Option.some_bind] at h
        simp only [] at h
        rw [leParse_append_mono 8 r2 extra x3 r3 e3, Option.some_bind]
        simp only []
        cases e4 : leParse 8 r3 with
        | none => rw [e4] at h; exact absurd h (by simp)
        | some p4 =>
          obtain ⟨x4, r4⟩ := p4
          rw [e4, Option.some_bind] at h
          simp only [] at h
          rw [leParse_append_mono 8 r3 extra x4 r4 e4, Option.some_bind]
          simp only []
          cases e5 : takeBytes 32 r4 with
          | none => rw [e5] at h; exact absurd h (by simp)
          | some p5 =>
            obtain ⟨l5, r5⟩ := p5
            rw [e5, Option.map_some'] at h
            rw [takeBytes_append_mono 32 r4 extra l5 r5 e5, Option.map_some']
            have ha : a = .initP l1 l2 (i64FromBits x3) x4 l5 := by
              simpa using (congrArg Prod.fst (Option.some.inj h)).symm
            have hr : r = r5 := by
              simpa using (congrArg Prod.snd (Option.some.inj h)).symm
            subst ha; subst hr
            rfl

theorem stakeSwitchParse_cases (ty : Nat) (s : List Nat) :
    stakeSwitchParse ty s =
      if ty = 0 then initializeLayoutParse s
      else if ty = 1 then some (.noneP, s)
      else if ty = 3 then (leParse 8 s).map fun p => (.withdrawP p.1, p.2)
      else some (.noneP, s) := rfl

theorem stakeSwitchParse_append_mono (ty : Nat) (s extra : List Nat)
    (a : ParsedStakeArgs) (r : List Nat)
    (h : stakeSwitchParse ty s = some (a, r)) :
    stakeSwitchParse ty (s ++ extra) = some (a, r ++ extra) := by
  rw [stakeSwitchParse_cases] at h ⊢
  by_cases h0 : ty = 0
  · rw [if_pos h0] at h ⊢
    exact initializeLayoutParse_append_mono s extra a r h
  · rw [if_neg h0] at h ⊢
    by_cases h1 : ty = 1
    · rw [if_pos h1] at h ⊢
      injection h with h2
      injection h2 with ha hr
      subst ha; subst hr
      rfl
    · rw [if_neg h1] at h ⊢
      by_cases h3 : ty = 3
      · rw [if_pos h3] at h ⊢
        rw [Option.map_eq_some'] at h
        obtain ⟨⟨x, r2⟩, e, hx⟩ := h
        have ha : a = .withdrawP x := by
          simpa using (congrArg Prod.fst hx).symm
        have hr : r = r2 := by
          simpa using (congrArg Prod.snd hx).symm
        subst ha; subst hr
        rw [leParse_append_mono 8 s extra x r e, Option.map_some']
      · rw [if_neg h3] at h ⊢
        injection h with h2
        injection h2 with ha hr
        subst ha; subst hr
        rfl

theorem stakeDecode_append_mono (s extra : List Nat) (x : Nat × ParsedStakeArgs)
    (h : stakeDecode s = some x) : stakeDecode (s ++ extra) = some x := by
  unfold stakeDecode stakeParseStream at h ⊢
  cases e4 : leParse 4 s with
  | none => rw [e4] at h; exact absurd h (by simp)
  | some p =>
    obtain ⟨ty, r⟩ := p
    rw [e4, Option.some_bind] at h
    simp only [] at h
    rw [leParse_append_mono 4 s extra ty r e4, Option.some_bind]
    simp only []
    cases es : stakeSwitchParse ty r with
    | none => rw [es] at h; exact absurd h (by simp)
    | some q =>
      obtain ⟨a, r2⟩ := q
      rw [es, Option.map_some', Option.map_some'] at h
      rw [stakeSwitchParse_append_mono ty r extra a r2 es, Option.map_some',
        Option.map_some']
      simpa using h

/-- C5 amended: decode fails exactly when the buffer is too short — the
first conjunct is an exact characterization: decode returns an error
precisely when fewer than 4 bytes are available, or when a recognized
payload-bearing discriminant (Initialize, Withdraw) is followed by
fewer than its fixed payload width (112 and 8 further bytes
respectively).  The second conjunct: any discriminant other than
Initialize and Withdraw — Delegate, the table-less Deactivate, and
every unknown value such as FF FF FF FF — never fails; it decodes to
the `Pass` payload `None`.  The third conjunct: trailing unconsumed
bytes are silently ignored, never rejected — whatever a buffer decodes
to, the buffer extended by arbitrary extra bytes decodes to the same
value. -/
theorem stake_decode_failure_characterization :
    (∀ s : List Nat, stakeDecode s = none ↔
      s.length < 4 ∨
      ∃ ty r, leParse 4 s = some (ty, r) ∧
        ((ty = 0 ∧ r.length < 112) ∨ (ty = 3 ∧ r.length < 8))) ∧
    (∀ (s : List Nat) (ty : Nat) (r : List Nat),
      leParse 4 s = some (ty, r) → ty ≠ 0 → ty ≠ 3 →
      stakeDecode s = some (ty, .noneP)) ∧
    (∀ (s extra : List Nat) (x : Nat × ParsedStakeArgs),
      stakeDecode s = some x → stakeDecode (s ++ extra) = some x) := by
  refine ⟨?_, ?_, stakeDecode_append_mono⟩
  · intro s
    constructor
    · intro h
      cases e : leParse 4 s with
      | none =>
        left
        by_contra hlen
        push_neg at hlen
        obtain ⟨x, r, e2, _⟩ := leParse_of_le 4 s hlen
        rw [e2] at e
        exact absurd e (by simp)
      | some p =>
        obtain ⟨ty, r⟩ := p
        right
        refine ⟨ty, r, rfl, ?_⟩
        unfold stakeDecode stakeParseStream at h
        rw [e, Option.some_bind] at h
        simp only [] at h
        rw [stakeSwitchParse_cases] at h
        by_cases h0 : ty = 0
        · subst h0
          rw [if_pos rfl] at h
          refine Or.inl ⟨rfl, ?_⟩
          by_contra hr
          push_neg at hr
          obtain ⟨p, ep⟩ := initializeLayoutParse_of_le r hr
          rw [ep] at h
          exact absurd h (by simp)
        · rw [if_neg h0] at h
          by_cases h1 : ty = 1
          · rw [if_pos h1] at h
            exact absurd h (by simp)
          · rw [if_neg h1] at h
            by_cases h3 : ty = 3
            · subst h3
              rw [if_pos rfl] at h
              refine Or.inr ⟨rfl, ?_⟩
              by_contra hr
              push_neg at hr
              obtain ⟨x, r2, e2, _⟩ := leParse_of_le 8 r hr
              rw [e2] at h
              exact absurd h (by simp)
            · rw [if_neg h3] at h
              exact absurd h (by simp)
    · intro h
      rcases h with hlen | ⟨ty, r, e, hcase⟩
      · exact stakeDecode_too_short s hlen
      · unfold stakeDecode stakeParseStream
        rw [e, Option.some_bind]
        simp only []
        rw [stakeSwitchParse_cases]
        rcases hcase with ⟨h0, hr⟩ | ⟨h3, hr⟩
        · subst h0
          rw [if_pos rfl]
          cases ei : initializeLayoutParse r with
          | none => rfl
          | some p =>
            exfalso
            have := initializeLayoutParse_length r p.1 p.2 (by rw [ei])
            omega
        · subst h3
          rw [if_neg (by norm_num : ¬(3 : Nat) = 0),
            if_neg (by norm_num : ¬(3 : Nat) = 1), if_pos rfl]
          rw [leParse_short 8 r hr]
          rfl
  · intro s ty r e h0 h3
    unfold stakeDecode stakeParseStream
    rw [e, Option.some_bind]
    simp only []
    rw [stakeSwitchParse_cases, if_neg h0]
    by_cases h1 : ty = 1
    · rw [if_pos h1]
      rfl
    · rw [if_neg h1, if_neg h3]
      rfl

/-- C5 witness: the characterization applied at concrete buffers — a
3-byte buffer and a 10-byte buffer claiming Initialize fail, a short
Withdraw buffer fails, an unknown discriminant FF FF FF FF succeeds
with a `None` payload, and a Delegate buffer with a trailing byte
decodes the same as without it. -/
theorem stake_decode_failure_characterization_witness :
    stakeDecode [1, 2, 3] = none ∧
    stakeDecode ([0, 0, 0, 0] ++ [9, 9, 9, 9, 9, 9]) = none ∧
    stakeDecode ([3, 0, 0, 0] ++ [1]) = none ∧
    stakeDecode [255, 255, 255, 255] = some (4294967295, .noneP) ∧
    stakeDecode ([1, 0, 0, 0] ++ [170]) = some (1, .noneP) :=
  ⟨(stake_decode_failure_characterization.1 [1, 2, 3]).mpr
      (Or.inl (by decide)),
    (stake_decode_failure_characterization.1 _).mpr
      (Or.inr ⟨0, [9, 9, 9, 9, 9, 9], by decide, Or.inl ⟨rfl, by decide⟩⟩),
    (stake_decode_failure_characterization.1 _).mpr
      (Or.inr ⟨3, [1], by decide, Or.inr ⟨rfl, by decide⟩⟩),
    stake_decode_failure_characterization.2.1 [255, 255, 255, 255]
      4294967295 [] (by decide) (by decide) (by decide),
    stake_decode_failure_characterization.2.2 [1, 0, 0, 0] [170] (1, .noneP)
      (stake_decode_failure_characterization.2.1 [1, 0, 0, 0] 1 []
        (by decide) (by decide) (by decide))⟩

theorem initialize_stake_eq (params : InitializeStakeParams)
    (h1 : -(2 ^ 63) ≤ params.lockup.unix_timestamp)
    (h2 : params.lockup.unix_timestamp < 2 ^ 63)
    (h3 : params.lockup.epoch < 2 ^ 64) :
    initialize_stake params = some
      { keys := [⟨params.stake_pubkey, true, true⟩,
          ⟨SYSVAR_RENT_PUBKEY, false, false⟩],
        program_id := STAKE_PROGRAM_ID,
        data := [0, 0, 0, 0] ++ initPayload params.authorized params.lockup } := by
  unfold initialize_stake
  rw [stakeBuild_init_eq _ _ h1 h2 h3, Option.map_some']

theorem create_account_eq (p : CreateAccountParams) (h1 : p.lamports < 2 ^ 64)
    (h2 : p.space < 2 ^ 64) :
    create_account p = some
      { keys := [⟨p.from_pubkey, true, true⟩, ⟨p.new_account_pubkey, true, true⟩],
        program_id := SYS_PROGRAM_ID,
        data := leBytes 4 0 ++ leBytes 8 p.lamports ++ leBytes 8 p.space ++
          p.program_id.bytes } := by
  unfold create_account
  rw [if_pos ⟨h1, h2⟩]

theorem create_account_with_seed_eq (p : CreateAccountWithSeedParams)
    (h1 : p.lamports < 2 ^ 64) (h2 : p.space < 2 ^ 64)
    (h3 : p.seed.length < 2 ^ 64) :
    create_account_with_seed p = some
      { keys := [⟨p.from_pubkey, true, true⟩, ⟨p.new_account_pubkey, false, true⟩],
        program_id := SYS_PROGRAM_ID,
        data := leBytes 4 3 ++ p.base_pubkey.bytes ++ leBytes 8 p.seed.length ++
          p.seed ++ leBytes 8 p.lamports ++ leBytes 8 p.space ++
          p.program_id.bytes } := by
  unfold create_account_with_seed
  rw [if_pos ⟨h1, h2, h3⟩]

theorem create_stake_account_plain_eq (p : CreateStakeAccountParams)
    (hp : p.lamports < 2 ^ 64)
    (h1 : -(2 ^ 63) ≤ p.lockup.unix_timestamp)
    (h2 : p.lockup.unix_timestamp < 2 ^ 63) (h3 : p.lockup.epoch < 2 ^ 64) :
    create_stake_account (.plain p) = some
      { fee_payer := none,
        instructions := [
          { keys := [⟨p.from_pubkey, true, true⟩, ⟨p.stake_pubkey, true, true⟩],
            program_id := SYS_PROGRAM_ID,
            data := leBytes 4 0 ++ leBytes 8 p.lamports ++ leBytes 8 200 ++
              STAKE_PROGRAM_ID.bytes },
          { keys := [⟨p.stake_pubkey, true, true⟩,
              ⟨SYSVAR_RENT_PUBKEY, false, false⟩],
            program_id := STAKE_PROGRAM_ID,
            data := [0, 0, 0, 0] ++ initPayload p.authorized p.lockup } ] } := by
  unfold create_stake_account
  simp only [CreateStakeAccountAny.from_pubkey, CreateStakeAccountAny.stake_pubkey,
    CreateStakeAccountAny.authorized, CreateStakeAccountAny.lockup,
    CreateStakeAccountAny.toCreation]
  rw [initialize_stake_eq ⟨p.from_pubkey, p.stake_pubkey, p.authorized, p.lockup⟩
    h1 h2 h3]
  unfold _create_stake_account_instruction
  simp only []
  rw [create_account_eq ⟨p.from_pubkey, p.stake_pubkey, p.lamports, 200,
    STAKE_PROGRAM_ID⟩ hp (by norm_num)]
  rfl

theorem create_stake_account_seeded_eq (q : CreateStakeAccountWithSeedParams)
    (hq : q.lamports < 2 ^ 64) (hqs : q.seed.length < 2 ^ 64)
    (h1 : -(2 ^ 63) ≤ q.lockup.unix_timestamp)
    (h2 : q.lockup.unix_timestamp < 2 ^ 63) (h3 : q.lockup.epoch < 2 ^ 64) :
    create_stake_account (.seeded q) = some
      { fee_payer := none,
        instructions := [
          { keys := [⟨q.from_pubkey, true, true⟩, ⟨q.stake_pubkey, false, true⟩],
            program_id := SYS_PROGRAM_ID,
            data := leBytes 4 3 ++ q.base_pubkey.bytes ++
              leBytes 8 q.seed.length ++ q.seed ++ leBytes 8 q.lamports ++
              leBytes 8 200 ++ STAKE_PROGRAM_ID.bytes },
          { keys := [⟨q.stake_pubkey, true, true⟩,
              ⟨SYSVAR_RENT_PUBKEY, false, false⟩],
            program_id := STAKE_PROGRAM_ID,
            data := [0, 0, 0, 0] ++ initPayload q.authorized q.lockup } ] } := by
  unfold create_stake_account
  simp only [CreateStakeAccountAny.from_pubkey, CreateStakeAccountAny.stake_pubkey,
    CreateStakeAccountAny.authorized, CreateStakeAccountAny.lockup,
    CreateStakeAccountAny.toCreation]
  rw [initialize_stake_eq ⟨q.from_pubkey, q.stake_pubkey, q.authorized, q.lockup⟩
    h1 h2 h3]
  unfold _create_stake_account_instruction
  simp only []
  rw [create_account_with_seed_eq ⟨q.from_pubkey, q.stake_pubkey, q.base_pubkey,
    q.seed, q.lamports, 200, STAKE_PROGRAM_ID⟩ hq (by norm_num) hqs]
  rfl

/-- C9: `create_stake_account` (plain or seeded) returns a transaction
holding exactly two instructions: first the allocation instruction from
the account-creation collaborator — allocating the stake account with a
fixed 200-byte span, owned by the Stake program, funded with the given
lamports — and second the initialize instruction; and the allocation's
target account (key slot 1, the new stake account) equals the
initialize instruction's first account reference. -/
theorem create_stake_account_composite (p : CreateStakeAccountParams)
    (q : CreateStakeAccountWithSeedParams)
    (hp : p.lamports < 2 ^ 64)
    (hp1 : -(2 ^ 63) ≤ p.lockup.unix_timestamp)
    (hp2 : p.lockup.unix_timestamp < 2 ^ 63) (hp3 : p.lockup.epoch < 2 ^ 64)
    (hq : q.lamports < 2 ^ 64) (hqs : q.seed.length < 2 ^ 64)
    (hq1 : -(2 ^ 63) ≤ q.lockup.unix_timestamp)
    (hq2 : q.lockup.unix_timestamp < 2 ^ 63) (hq3 : q.lockup.epoch < 2 ^ 64) :
    create_stake_account (.plain p) = some
      { fee_payer := none,
        instructions := [
          { keys := [⟨p.from_pubkey, true, true⟩, ⟨p.stake_pubkey, true, true⟩],
            program_id := SYS_PROGRAM_ID,
            data := leBytes 4 0 ++ leBytes 8 p.lamports ++ leBytes 8 200 ++
              STAKE_PROGRAM_ID.bytes },
          { keys := [⟨p.stake_pubkey, true, true⟩,
              ⟨SYSVAR_RENT_PUBKEY, false, false⟩],
            program_id := STAKE_PROGRAM_ID,
            data := [0, 0, 0, 0] ++ initPayload p.authorized p.lockup } ] } ∧
    create_stake_account (.seeded q) = some
      { fee_payer := none,
        instructions := [
          { keys := [⟨q.from_pubkey, true, true⟩, ⟨q.stake_pubkey, false, true⟩],
            program_id := SYS_PROGRAM_ID,
            data := leBytes 4 3 ++ q.base_pubkey.bytes ++
              leBytes 8 q.seed.length ++ q.seed ++ leBytes 8 q.lamports ++
              leBytes 8 200 ++ STAKE_PROGRAM_ID.bytes },
          { keys := [⟨q.stake_pubkey, true, true⟩,
              ⟨SYSVAR_RENT_PUBKEY, false, false⟩],
            program_id := STAKE_PROGRAM_ID,
            data := [0, 0, 0, 0] ++ initPayload q.authorized q.lockup } ] } ∧
    (∀ t : Transaction,
      create_stake_account (.plain p) = some t ∨
        create_stake_account (.seeded q) = some t →
      (t.instructions[0]?.bind fun ix => (ix.keys[1]?).map AccountMeta.pubkey)
        = (t.instructions[1]?.bind fun ix =>
            (ix.keys[0]?).map AccountMeta.pubkey)) := by
  have ep := create_stake_account_plain_eq p hp hp1 hp2 hp3
  have eq2 := create_stake_account_seeded_eq q hq hqs hq1 hq2 hq3
  refine ⟨ep, eq2, ?_⟩
  intro t h
  cases h with
  | inl h => rw [ep] at h; cases h; rfl
  | inr h => rw [eq2] at h; cases h; rfl

/-- C9 witness: the composite at concrete plain and seeded records. -/
theorem create_stake_account_composite_witness :
    (sampleCreateParams.lamports < 2 ^ 64 ∧
     -(2 ^ 63) ≤ sampleCreateParams.lockup.unix_timestamp ∧
     sampleCreateParams.lockup.unix_timestamp < 2 ^ 63 ∧
     sampleCreateParams.lockup.epoch < 2 ^ 64 ∧
     sampleCreateSeedParams.lamports < 2 ^ 64 ∧
     sampleCreateSeedParams.seed.length < 2 ^ 64 ∧
     -(2 ^ 63) ≤ sampleCreateSeedParams.lockup.unix_timestamp ∧
     sampleCreateSeedParams.lockup.unix_timestamp < 2 ^ 63 ∧
     sampleCreateSeedParams.lockup.epoch < 2 ^ 64) ∧
    (create_stake_account (.plain sampleCreateParams) = some
      { fee_payer := none,
        instructions := [
          { keys := [⟨sampleCreateParams.from_pubkey, true, true⟩,
              ⟨sampleCreateParams.stake_pubkey, true, true⟩],
            program_id := SYS_PROGRAM_ID,
            data := leBytes 4 0 ++ leBytes 8 sampleCreateParams.lamports ++
              leBytes 8 200 ++ STAKE_PROGRAM_ID.bytes },
          { keys := [⟨sampleCreateParams.stake_pubkey, true, true⟩,
              ⟨SYSVAR_RENT_PUBKEY, false, false⟩],
            program_id := STAKE_PROGRAM_ID,
            data := [0, 0, 0, 0] ++ initPayload sampleCreateParams.authorized
              sampleCreateParams.lockup } ] } ∧
    create_stake_account (.seeded sampleCreateSeedParams) = some
      { fee_payer := none,
        instructions := [
          { keys := [⟨sampleCreateSeedParams.from_pubkey, true, true⟩,
              ⟨sampleCreateSeedParams.stake_pubkey, false, true⟩],
            program_id := SYS_PROGRAM_ID,
            data := leBytes 4 3 ++ sampleCreateSeedParams.base_pubkey.bytes ++
              leBytes 8 sampleCreateSeedParams.seed.length ++
              sampleCreateSeedParams.seed ++
              leBytes 8 sampleCreateSeedParams.lamports ++
              leBytes 8 200 ++ STAKE_PROGRAM_ID.bytes },
          { keys := [⟨sampleCreateSeedParams.stake_pubkey, true, true⟩,
              ⟨SYSVAR_RENT_PUBKEY, false, false⟩],
            program_id := STAKE_PROGRAM_ID,
            data := [0, 0, 0, 0] ++ initPayload
              sampleCreateSeedParams.authorized
              sampleCreateSeedParams.lockup } ] } ∧
    (∀ t : Transaction,
      create_stake_account (.plain sampleCreateParams) = some t ∨
        create_stake_account (.seeded sampleCreateSeedParams) = some t →
      (t.instructions[0]?.bind fun ix => (ix.keys[1]?).map AccountMeta.pubkey)
        = (t.instructions[1]?.bind fun ix =>
            (ix.keys[0]?).map AccountMeta.pubkey))) :=
  ⟨⟨by decide, by decide, by decide, by decide, by decide, by decide,
    by decide, by decide, by decide⟩,
    create_stake_account_composite sampleCreateParams sampleCreateSeedParams
      (by decide) (by decide) (by decide) (by decide) (by decide) (by decide)
      (by decide) (by decide) (by decide)⟩

def sampleDelegateParams : DelegateStakeParams :=
  ⟨sampleKey 40, sampleKey 41, sampleKey 42⟩

/-- C7 witness: the delegate account shape at a concrete parameter
record. -/
theorem delegate_stake_instruction_account_shape_witness :
    delegate_stake_instruction sampleDelegateParams = some
      { keys := [⟨sampleDelegateParams.stake_pubkey, false, true⟩,
          ⟨sampleDelegateParams.vote_pubkey, false, false⟩,
          ⟨SYSVAR_CLOCK_PUBKEY, false, false⟩,
          ⟨SYSVAR_STAKE_HISTORY_PUBKEY, false, false⟩,
          ⟨CONFIG_STAKE_PUBKEY, false, false⟩,
          ⟨sampleDelegateParams.authorized_pubkey, true, false⟩],
        program_id := STAKE_PROGRAM_ID,
        data := [1, 0, 0, 0] } ∧
    stakeBuild StakeInstructionType.DELEGATE_STAKE .empty = some [1, 0, 0, 0] ∧
    ∀ ix, delegate_stake_instruction sampleDelegateParams = some ix →
      ix.keys.length = 6 ∧
      (ix.keys.filter AccountMeta.is_signer).map AccountMeta.pubkey
        = [sampleDelegateParams.authorized_pubkey] ∧
      ix.keys.getLast? = some ⟨sampleDelegateParams.authorized_pubkey, true, false⟩ :=
  delegate_stake_instruction_account_shape sampleDelegateParams
